import Mathlib

/-!
# Swaplesscircle: the EIP-2612 permit workflow and the paymaster data layout

A shallow embedding of `src/permit.js` (`eip2612Permit`, `signPermit`) and of
the paymaster-data packing expression of `src/index.js`, `src/usdc.js` and
`src/test-permit.js`.

* JavaScript strings (token name, version, addresses and hex strings as the
  permit code handles them) are Lean `String`s; `bigint`s that the code only
  ever receives as unsigned 256-bit quantities are `Nat`s.
* An `await`ed call on a collaborator (token read, signer, verifier) is a
  function of an abstract world state that returns either a value or a
  rejection together with the next world state.  Every such call is appended
  to a log, so that "was called" and "was never reached" can be stated.
* A `throw` is the `Except.error` result; nothing in `permit.js` catches.
-/

namespace Swaplesscircle

/-! ## Data model -/

/-- An address as `permit.js` handles it: a JavaScript string that is passed on
untouched. -/
abbrev Address := String

/-- A hex string (`0x...`) as `permit.js` handles it. -/
abbrev Hex := String

/-- One entry `{ name, type }` of an EIP-712 type list. -/
structure TypedDataField where
  name : String
  type : String
deriving DecidableEq, Repr

/-- The `domain` object of the typed data. -/
structure TypedDataDomain where
  name : String
  version : String
  chainId : Nat
  verifyingContract : Address
deriving DecidableEq, Repr

/-- The `message` object of the typed data. -/
structure PermitMessage where
  owner : Address
  spender : Address
  value : String
  nonce : String
  deadline : String
deriving DecidableEq, Repr

/-- The object returned by `eip2612Permit`.  `types` is the object literal with
its keys in source order, each key with its ordered field list. -/
structure TypedData where
  types : List (String × List TypedDataField)
  primaryType : String
  domain : TypedDataDomain
  message : PermitMessage
deriving DecidableEq, Repr

/-- The argument of `client.verifyTypedData`: the spread `...permitData`
followed by `address` and `signature`. -/
structure VerifyTypedDataParameters where
  types : List (String × List TypedDataField)
  primaryType : String
  domain : TypedDataDomain
  message : PermitMessage
  address : Address
  signature : Hex
deriving DecidableEq, Repr

/-- The object returned by viem's `parseErc6492Signature`; `signPermit` reads
only its `signature` field. -/
structure Erc6492 where
  signature : Hex
deriving DecidableEq, Repr

/-- The object `client.chain`: the code reads only `id`. -/
structure Chain where
  id : Nat
deriving DecidableEq, Repr

/-! ## Effects -/

/-- A value that leaves a function through `throw` or a rejected promise:
either the rejection `e` of a collaborator, passed on unchanged, or the
`new Error(message)` that `signPermit` itself creates. -/
inductive Thrown (ε : Type) where
  | rejected (e : ε)
  | error (message : String)
deriving DecidableEq, Repr

/-- The collaborator calls that the permit code makes, with their arguments. -/
inductive Call where
  | readName (token : Address)
  | readVersion (token : Address)
  | readNonces (token : Address) (owner : Address)
  | signTypedData (account : Address) (data : TypedData)
  | verifyTypedData (parameters : VerifyTypedDataParameters)
  | parseErc6492Signature (signature : Hex)
deriving DecidableEq, Repr

/-- The state threaded through a run: the world the collaborators live in and
the log of the calls made so far, oldest first. -/
structure Run (σ : Type) where
  world : σ
  calls : List Call

/-- A computation of the permit code: from a run state to a result (a value or
a thrown value) and the run state afterwards. -/
def Eff (σ ε α : Type) : Type := Run σ → Except (Thrown ε) α × Run σ

/-- A computation that returns `a` at once. -/
def Eff.pure {σ ε α : Type} (a : α) : Eff σ ε α := fun r => (.ok a, r)

/-- Sequencing: a thrown value of the first computation ends the run there. -/
def Eff.bind {σ ε α β : Type} (m : Eff σ ε α) (f : α → Eff σ ε β) : Eff σ ε β :=
  fun r =>
    match m r with
    | (.ok a, r1) => f a r1
    | (.error t, r1) => (.error t, r1)

/-- A `throw` statement. -/
def Eff.throw {σ ε α : Type} (t : Thrown ε) : Eff σ ε α := fun r => (.error t, r)

instance {σ ε : Type} : Monad (Eff σ ε) where
  pure := Eff.pure
  bind := Eff.bind

/-- An `await`ed collaborator call `c`, answered by `f` in the current world;
the call is logged whether it succeeds or rejects. -/
def Eff.await {σ ε α : Type} (c : Call) (f : σ → Except ε α × σ) : Eff σ ε α :=
  fun r =>
    match f r.world with
    | (.ok a, w) => (.ok a, ⟨w, r.calls ++ [c]⟩)
    | (.error e, w) => (.error (.rejected e), ⟨w, r.calls ++ [c]⟩)

/-- A call of a synchronous library function `c` that may throw. -/
def Eff.invoke {σ ε α : Type} (c : Call) (res : Except ε α) : Eff σ ε α :=
  fun r =>
    match res with
    | .ok a => (.ok a, ⟨r.world, r.calls ++ [c]⟩)
    | .error e => (.error (.rejected e), ⟨r.world, r.calls ++ [c]⟩)

/-! ## Collaborators -/

/-- The read-only chain client: the contract reads behind `token.read.*`
(by contract address), `verifyTypedData`, and its `chain`. -/
structure Client (σ ε : Type) where
  chain : Chain
  readName : Address → σ → Except ε String × σ
  readVersion : Address → σ → Except ε String × σ
  readNonces : Address → Address → σ → Except ε Nat × σ
  verifyTypedData : VerifyTypedDataParameters → σ → Except ε Bool × σ

/-- A token contract handle: its `address` and its three reads. -/
structure Token (σ ε : Type) where
  address : Address
  name : σ → Except ε String × σ
  version : σ → Except ε String × σ
  nonces : Address → σ → Except ε Nat × σ

/-- The signer: its `address` and `signTypedData`. -/
structure Account (σ ε : Type) where
  address : Address
  signTypedData : TypedData → σ → Except ε Hex × σ

/-- The handle `getContract({ client, address, abi: eip2612Abi })` of viem: its
reads are the client's contract reads at `address`. -/
def getContract {σ ε : Type} (client : Client σ ε) (address : Address) : Token σ ε :=
  { address := address
    name := client.readName address
    version := client.readVersion address
    nonces := fun owner => client.readNonces address owner }

/-- The constant `maxUint256` of viem. -/
def maxUint256 : Nat := 2 ^ 256 - 1

/-- The method `toString()` of a `bigint`: its decimal digits. -/
def bigintToString (n : Nat) : String := Nat.repr n

/-! ## `permit.js` -/

/-- The `types` object literal of `eip2612Permit`. -/
def permitTypes : List (String × List TypedDataField) :=
  [ ("EIP712Domain",
      [ ⟨"name", "string"⟩,
        ⟨"version", "string"⟩,
        ⟨"chainId", "uint256"⟩,
        ⟨"verifyingContract", "address"⟩ ]),
    ("Permit",
      [ ⟨"owner", "address"⟩,
        ⟨"spender", "address"⟩,
        ⟨"value", "uint256"⟩,
        ⟨"nonce", "uint256"⟩,
        ⟨"deadline", "uint256"⟩ ]) ]

/-- The function `eip2612Permit` of `permit.js`: the object literal is evaluated
in source order, so the reads happen in the order name, version, nonces. -/
def eip2612Permit {σ ε : Type} (token : Token σ ε) (chain : Chain)
    (ownerAddress spenderAddress : Address) (value : Nat) : Eff σ ε TypedData := do
  let name ← Eff.await (.readName token.address) token.name
  let version ← Eff.await (.readVersion token.address) token.version
  let nonce ← Eff.await (.readNonces token.address ownerAddress) (token.nonces ownerAddress)
  pure
    { types := permitTypes
      primaryType := "Permit"
      domain :=
        { name := name
          version := version
          chainId := chain.id
          verifyingContract := token.address }
      message :=
        { owner := ownerAddress
          spender := spenderAddress
          value := bigintToString value
          nonce := bigintToString nonce
          deadline := bigintToString maxUint256 } }

/-- The function `signPermit` of `permit.js`.  `parseErc6492Signature` is viem's
unwrapping function, taken as a parameter. -/
def signPermit {σ ε : Type} (parseErc6492Signature : Hex → Except ε Erc6492)
    (tokenAddress : Address) (client : Client σ ε) (account : Account σ ε)
    (spenderAddress : Address) (permitAmount : Nat) : Eff σ ε Hex := do
  let token := getContract client tokenAddress
  let permitData ← eip2612Permit token client.chain account.address spenderAddress permitAmount
  let wrappedPermitSignature ←
    Eff.await (.signTypedData account.address permitData) (account.signTypedData permitData)
  let parameters : VerifyTypedDataParameters :=
    { types := permitData.types
      primaryType := permitData.primaryType
      domain := permitData.domain
      message := permitData.message
      address := account.address
      signature := wrappedPermitSignature }
  let isValid ← Eff.await (.verifyTypedData parameters) (client.verifyTypedData parameters)
  if !isValid then
    Eff.throw (.error
      ("Invalid permit signature for " ++ account.address ++ ": " ++ wrappedPermitSignature))
  else do
    let parsed ← Eff.invoke (.parseErc6492Signature wrappedPermitSignature)
      (parseErc6492Signature wrappedPermitSignature)
    pure parsed.signature

/-! ## Specification vocabulary -/

/-- Reading a decimal string back as an unsigned integer: a non-empty string
of decimal digits denotes the number with those digits, anything else denotes
nothing. -/
def parseDecimal (s : String) : Option Nat :=
  if s.data ≠ [] ∧ s.data.all Char.isDigit = true then
    some (s.data.foldl (fun n c => n * 10 + (c.toNat - '0'.toNat)) 0)
  else none

/-- The calls logged between the run state `before` and the later run state
`after`. -/
def newCalls {σ : Type} (before after : Run σ) : List Call :=
  after.calls.drop before.calls.length

/-- One of the three token reads of a run of `eip2612Permit` that starts in world
`w` rejects with `e`: the name read; or, after the name read returned, the
version read; or, after both returned, the nonces read for `owner`. -/
def ReadFails {σ ε : Type} (token : Token σ ε) (owner : Address) (w : σ) (e : ε) : Prop :=
  (token.name w).1 = .error e ∨
  (∃ n w1, token.name w = (.ok n, w1) ∧ (token.version w1).1 = .error e) ∨
  (∃ n w1 v w2, token.name w = (.ok n, w1) ∧ token.version w1 = (.ok v, w2) ∧
    (token.nonces owner w2).1 = .error e)

/-! ## Paymaster data (`index.js`, `usdc.js`, `test-permit.js`)

In this part a hex string is represented by the byte string it denotes. -/

/-- One byte. -/
abbrev Byte := Fin 256

/-- A byte string, first byte first. -/
abbrev Bytes := List Byte

/-- The Solidity type names that the packing expression uses. -/
inductive AbiType where
  | uint (bits : Nat)
  | address
  | bytes
deriving DecidableEq, Repr

/-- A value handed to `encodePacked`: a number or a hex string. -/
inductive AbiValue where
  | number (n : Nat)
  | hex (b : Bytes)
deriving DecidableEq, Repr

/-- The big-endian encoding of `n` in `size` bytes (the low `size` bytes of `n`). -/
def numberToBytes : Nat → Nat → Bytes
  | 0, _ => []
  | size + 1, n => numberToBytes size (n / 256) ++ [⟨n % 256, Nat.mod_lt n (by decide)⟩]

/-- The unsigned integer that a byte string denotes, big-endian. -/
def bytesToNumber (b : Bytes) : Nat := b.foldl (fun acc x => acc * 256 + x.val) 0

/-- Modelled from the spec: the body of `encodePacked` is in the viem package,
which is not among the source files.  One value in packed form, with the field
widths of the spec's layout read off the type name: `uintN` is the number in
`N / 8` bytes, big-endian, and is refused when it does not fit; `address` is
the 20 bytes of the address and is refused at any other length; `bytes` is the
byte string itself, at its own length. -/
def encodeValue : AbiType → AbiValue → Option Bytes
  | .uint bits, .number n =>
    if n < 2 ^ (8 * (bits / 8)) then some (numberToBytes (bits / 8) n) else none
  | .address, .hex b => if b.length = 20 then some b else none
  | .bytes, .hex b => some b
  | _, _ => none

/-- Modelled from the spec: the body of `encodePacked` is in the viem package,
which is not among the source files.  The packed encodings of the values, in
order, with nothing between them; refused when a value is refused or when the
two lists differ in length. -/
def encodePacked : List AbiType → List AbiValue → Option Bytes
  | [], [] => some []
  | t :: ts, v :: vs =>
    match encodeValue t v, encodePacked ts vs with
    | some a, some rest => some (a ++ rest)
    | _, _ => none
  | _, _ => none

/-- The expression bound to `paymasterData` in `getPaymasterData` (and in the
encoding test), as a function of the three values it packs after the mode byte. -/
def paymasterData (usdcAddress : Bytes) (permitAmount : Nat) (permitSignature : Bytes) :
    Option Bytes :=
  encodePacked [.uint 8, .address, .uint 256, .bytes]
    [.number 0, .hex usdcAddress, .number permitAmount, .hex permitSignature]

/-- The constant `usdcAddress` of the three scripts. -/
def usdcAddress : Bytes :=
  [0x75, 0xfa, 0xf1, 0x14, 0xea, 0xfb, 0x1B, 0xDb, 0xe2, 0xF0,
   0x31, 0x6D, 0xF8, 0x93, 0xfd, 0x58, 0xCE, 0x46, 0xAA, 0x4d]

/-- The constant `permitAmount` of `getPaymasterData`. -/
def permitAmount : Nat := 10000000

/-- The four fields of the paymaster data layout. -/
structure PaymasterFields where
  mode : Nat
  token : Bytes
  permitAmount : Nat
  signature : Bytes
deriving DecidableEq, Repr

/-- Unpacking by the documented widths: byte 0 is the mode, bytes 1 to 20 the
token address, bytes 21 to 52 the permit amount as a big-endian unsigned
integer, and the rest the signature.  Data shorter than the 53 fixed bytes
has no unpacking. -/
def unpackPaymasterData (data : Bytes) : Option PaymasterFields :=
  if data.length < 53 then none
  else some
    { mode := bytesToNumber (data.take 1)
      token := (data.drop 1).take 20
      permitAmount := bytesToNumber ((data.drop 21).take 32)
      signature := data.drop 53 }

/-! ## A scripted world

Collaborators with scripted answers over a counter world (each call advances
the counter), used to run the code on concrete inputs. -/

/-- A client on chain 421614 whose reads and verification give the scripted
answers. -/
def scriptedClient (name version : Except String String) (nonce : Except String Nat)
    (valid : Except String Bool) : Client Nat String :=
  { chain := ⟨421614⟩
    readName := fun _ w => (name, w + 1)
    readVersion := fun _ w => (version, w + 1)
    readNonces := fun _ _ w => (nonce, w + 1)
    verifyTypedData := fun _ w => (valid, w + 1) }

/-- A signer at address `0xabc` whose `signTypedData` gives the scripted answer. -/
def scriptedAccount (signature : Except String Hex) : Account Nat String :=
  { address := "0xabc"
    signTypedData := fun _ w => (signature, w + 1) }

/-- An unwrapping function for signatures that carry no wrapper: the signature
itself. -/
def unwrapPlain (signature : Hex) : Except String Erc6492 := .ok ⟨signature⟩

/-- The address string of the token in the scripts (`usdcAddress`). -/
def scenarioTokenAddress : Address := "0x75faf114eafb1BDbe2F0316DF893fd58CE46AA4d"

/-- The client of the scenario: token name USD Coin, version 2, nonce 0, and a
verifier that accepts. -/
def scenarioClient : Client Nat String :=
  scriptedClient (.ok "USD Coin") (.ok "2") (.ok 0) (.ok true)

/-- The permit payload of the scenario: USD Coin, version 2, chain 421614,
nonce 0, value 10000000. -/
def scenarioPayload : TypedData :=
  { types := permitTypes
    primaryType := "Permit"
    domain := ⟨"USD Coin", "2", 421614, scenarioTokenAddress⟩
    message :=
      ⟨"0xabc", "0xdef", "10000000", "0",
        "115792089237316195423570985008687907853269984665640564039457584007913129639935"⟩ }

/-! ## Lemmas: decimal strings -/

theorem digitChar_isDigit (d : Nat) (h : d < 10) : (Nat.digitChar d).isDigit = true := by
  interval_cases d <;> decide

theorem digitChar_value (d : Nat) (h : d < 10) : (Nat.digitChar d).toNat - '0'.toNat = d := by
  interval_cases d <;> decide

theorem toDigitsCore_ne_nil (fuel n : Nat) (ds : List Char) (h : n < fuel) :
    Nat.toDigitsCore 10 fuel n ds ≠ [] := by
  induction fuel generalizing n ds with
  | zero => omega
  | succ f ih =>
    simp only [Nat.toDigitsCore]
    split
    · simp
    · apply ih; omega

theorem toDigitsCore_all_isDigit (fuel n : Nat) (ds : List Char)
    (hds : ds.all Char.isDigit = true) :
    (Nat.toDigitsCore 10 fuel n ds).all Char.isDigit = true := by
  induction fuel generalizing n ds with
  | zero => simpa [Nat.toDigitsCore] using hds
  | succ f ih =>
    have hd : (Nat.digitChar (n % 10)).isDigit = true :=
      digitChar_isDigit _ (Nat.mod_lt _ (by decide))
    simp only [Nat.toDigitsCore]
    split
    · simp [List.all_cons, hd, hds]
    · apply ih; simp [List.all_cons, hd, hds]

theorem toDigitsCore_foldl (fuel n : Nat) (ds : List Char) (h : n < fuel) :
    (Nat.toDigitsCore 10 fuel n ds).foldl (fun n c => n * 10 + (c.toNat - '0'.toNat)) 0
      = ds.foldl (fun n c => n * 10 + (c.toNat - '0'.toNat)) n := by
  induction fuel generalizing n ds with
  | zero => omega
  | succ f ih =>
    have hv := digitChar_value (n % 10) (Nat.mod_lt _ (by decide))
    simp only [Nat.toDigitsCore]
    split
    · simp only [List.foldl_cons, hv]
      congr 1; omega
    · rw [ih (n / 10) _ (by omega)]
      simp only [List.foldl_cons, hv]
      congr 1; omega

/-- The decimal string of a number reads back as that number. -/
theorem parseDecimal_bigintToString (n : Nat) : parseDecimal (bigintToString n) = some n := by
  have h1 := toDigitsCore_ne_nil (n + 1) n [] (by omega)
  have h2 := toDigitsCore_all_isDigit (n + 1) n [] (by simp)
  have h3 := toDigitsCore_foldl (n + 1) n [] (by omega)
  simp only [parseDecimal, bigintToString, Nat.repr, Nat.toDigits, List.asString]
  rw [if_pos ⟨h1, h2⟩, h3]
  simp

/-- The decimal string of `maxUint256`. -/
theorem bigintToString_maxUint256 :
    bigintToString maxUint256 =
      "115792089237316195423570985008687907853269984665640564039457584007913129639935" := by
  decide

/-! ## Lemmas: packed bytes -/

theorem numberToBytes_length (size n : Nat) : (numberToBytes size n).length = size := by
  induction size generalizing n with
  | zero => rfl
  | succ k ih => simp [numberToBytes, ih]

theorem bytesToNumber_append_singleton (b : Bytes) (x : Byte) :
    bytesToNumber (b ++ [x]) = bytesToNumber b * 256 + x.val := by
  simp [bytesToNumber, List.foldl_append]

theorem bytesToNumber_numberToBytes (size n : Nat) :
    bytesToNumber (numberToBytes size n) = n % 256 ^ size := by
  induction size generalizing n with
  | zero => simp [numberToBytes, bytesToNumber, Nat.mod_one]
  | succ k ih =>
    rw [numberToBytes, bytesToNumber_append_singleton, ih, pow_succ, Nat.mul_comm (256 ^ k) 256,
      Nat.mod_mul]
    simp only []
    omega

theorem bytesToNumber_numberToBytes_32 (a : Nat) (ha : a < 2 ^ 256) :
    bytesToNumber (numberToBytes 32 a) = a := by
  rw [bytesToNumber_numberToBytes]
  exact Nat.mod_eq_of_lt (by simpa using ha)

theorem encodeValue_uint8_zero : encodeValue (.uint 8) (.number 0) = some [(0 : Byte)] := by
  decide

theorem encodeValue_uint256 (a : Nat) (ha : a < 2 ^ 256) :
    encodeValue (.uint 256) (.number a) = some (numberToBytes 32 a) := by
  have h : a < 2 ^ (8 * (256 / 8)) := ha
  simp only [encodeValue, if_pos h]

theorem encodeValue_address (t : Bytes) (ht : t.length = 20) :
    encodeValue .address (.hex t) = some t := by
  simp only [encodeValue, if_pos ht]

theorem paymasterData_eq (t : Bytes) (a : Nat) (s : Bytes) (ht : t.length = 20)
    (ha : a < 2 ^ 256) :
    paymasterData t a s = some ([(0 : Byte)] ++ t ++ numberToBytes 32 a ++ s) := by
  simp only [paymasterData, encodePacked, encodeValue_uint8_zero, encodeValue_uint256 a ha,
    encodeValue_address t ht]
  simp [encodeValue]


/-! ## Lemmas: runs of the permit code -/

theorem newCalls_append {σ : Type} (r : Run σ) (w : σ) (l : List Call) :
    newCalls r ⟨w, r.calls ++ l⟩ = l := by
  simp [newCalls]

/-- When the three reads return, `eip2612Permit` returns the payload built from
their values and has logged exactly the three reads. -/
theorem eip2612Permit_returns {σ ε : Type} (token : Token σ ε) (chain : Chain)
    (o s : Address) (v : Nat) (r : Run σ) (n ver : String) (k : Nat) (w1 w2 w3 : σ)
    (h1 : token.name r.world = (.ok n, w1)) (h2 : token.version w1 = (.ok ver, w2))
    (h3 : token.nonces o w2 = (.ok k, w3)) :
    eip2612Permit token chain o s v r =
      (.ok
        { types := permitTypes
          primaryType := "Permit"
          domain := ⟨n, ver, chain.id, token.address⟩
          message := ⟨o, s, bigintToString v, bigintToString k, bigintToString maxUint256⟩ },
        ⟨w3, r.calls ++ [.readName token.address, .readVersion token.address,
          .readNonces token.address o]⟩) := by
  simp [eip2612Permit, bind, Eff.bind, Eff.await, h1, h2, h3, pure, Eff.pure]

/-- When one of the reads rejects, `eip2612Permit` throws that rejection and has
logged reads only. -/
theorem eip2612Permit_rejects {σ ε : Type} (token : Token σ ε) (chain : Chain)
    (o s : Address) (v : Nat) (r : Run σ) (e : ε) (h : ReadFails token o r.world e) :
    ∃ w l, eip2612Permit token chain o s v r = (.error (.rejected e), ⟨w, r.calls ++ l⟩) ∧
      ∀ c ∈ l, c = .readName token.address ∨ c = .readVersion token.address ∨
        c = .readNonces token.address o := by
  rcases h with h | ⟨n, w1, h1, h⟩ | ⟨n, w1, ver, w2, h1, h2, h⟩
  · rcases hn : token.name r.world with ⟨res, w⟩
    rw [hn] at h
    simp only at h
    subst h
    refine ⟨w, [.readName token.address], ?_, by simp⟩
    simp [eip2612Permit, bind, Eff.bind, Eff.await, hn]
  · rcases hv : token.version w1 with ⟨res, w⟩
    rw [hv] at h
    simp only at h
    subst h
    refine ⟨w, [.readName token.address, .readVersion token.address], ?_, by simp⟩
    simp [eip2612Permit, bind, Eff.bind, Eff.await, h1, hv]
  · rcases hk : token.nonces o w2 with ⟨res, w⟩
    rw [hk] at h
    simp only at h
    subst h
    refine ⟨w, [.readName token.address, .readVersion token.address,
      .readNonces token.address o], ?_, by simp⟩
    simp [eip2612Permit, bind, Eff.bind, Eff.await, h1, h2, hk]

/-- A returned payload comes from three reads that returned. -/
theorem eip2612Permit_ok_inv {σ ε : Type} (token : Token σ ε) (chain : Chain)
    (o s : Address) (v : Nat) (r r1 : Run σ) (p : TypedData)
    (h : eip2612Permit token chain o s v r = (.ok p, r1)) :
    ∃ n ver k w1 w2 w3, token.name r.world = (.ok n, w1) ∧ token.version w1 = (.ok ver, w2) ∧
      token.nonces o w2 = (.ok k, w3) := by
  rcases hn : token.name r.world with ⟨_ | n, w1⟩
  · simp [eip2612Permit, bind, Eff.bind, Eff.await, hn] at h
  rcases hv : token.version w1 with ⟨_ | ver, w2⟩
  · simp [eip2612Permit, bind, Eff.bind, Eff.await, hn, hv] at h
  rcases hk : token.nonces o w2 with ⟨_ | k, w3⟩
  · simp [eip2612Permit, bind, Eff.bind, Eff.await, hn, hv, hk] at h
  exact ⟨n, ver, k, w1, w2, w3, rfl, hv, hk⟩

/-- A thrown value of `eip2612Permit` leaves `signPermit` unchanged, with nothing
more logged. -/
theorem signPermit_throws_of_payload {σ ε : Type}
    (parse : Hex → Except ε Erc6492) (tokenAddress : Address) (client : Client σ ε)
    (account : Account σ ε) (spender : Address) (amount : Nat) (r r1 : Run σ) (t : Thrown ε)
    (h : eip2612Permit (getContract client tokenAddress) client.chain account.address spender
      amount r = (.error t, r1)) :
    signPermit parse tokenAddress client account spender amount r = (.error t, r1) := by
  simp [signPermit, bind, Eff.bind, h]

/-- After the payload, `signPermit` signs, verifies and unwraps. -/
theorem signPermit_of_payload {σ ε : Type}
    (parse : Hex → Except ε Erc6492) (tokenAddress : Address) (client : Client σ ε)
    (account : Account σ ε) (spender : Address) (amount : Nat) (r r1 : Run σ) (p : TypedData)
    (h : eip2612Permit (getContract client tokenAddress) client.chain account.address spender
      amount r = (.ok p, r1)) :
    signPermit parse tokenAddress client account spender amount r =
      match account.signTypedData p r1.world with
      | (.error e, w) => (.error (.rejected e), ⟨w, r1.calls ++ [.signTypedData account.address p]⟩)
      | (.ok sig, w) =>
        match client.verifyTypedData
            ⟨p.types, p.primaryType, p.domain, p.message, account.address, sig⟩ w with
        | (.error e, w2) =>
          (.error (.rejected e), ⟨w2, r1.calls ++ [.signTypedData account.address p,
            .verifyTypedData ⟨p.types, p.primaryType, p.domain, p.message, account.address, sig⟩]⟩)
        | (.ok false, w2) =>
          (.error (.error ("Invalid permit signature for " ++ account.address ++ ": " ++ sig)),
            ⟨w2, r1.calls ++ [.signTypedData account.address p,
              .verifyTypedData
                ⟨p.types, p.primaryType, p.domain, p.message, account.address, sig⟩]⟩)
        | (.ok true, w2) =>
          match parse sig with
          | .error e =>
            (.error (.rejected e), ⟨w2, r1.calls ++ [.signTypedData account.address p,
              .verifyTypedData
                ⟨p.types, p.primaryType, p.domain, p.message, account.address, sig⟩,
              .parseErc6492Signature sig]⟩)
          | .ok x =>
            (.ok x.signature, ⟨w2, r1.calls ++ [.signTypedData account.address p,
              .verifyTypedData
                ⟨p.types, p.primaryType, p.domain, p.message, account.address, sig⟩,
              .parseErc6492Signature sig]⟩) := by
  simp only [signPermit, bind, Eff.bind, h, Eff.await]
  rcases hs : account.signTypedData p r1.world with ⟨e | sig, w⟩
  · simp
  · simp only []
    rcases hv : client.verifyTypedData
      ⟨p.types, p.primaryType, p.domain, p.message, account.address, sig⟩ w with ⟨e | b, w2⟩
    · simp
    · cases b
      · simp [Eff.throw]
      · simp only [Eff.invoke]
        rcases hp : parse sig with e | x
        · simp [Eff.bind, Eff.invoke]
        · simp [Eff.bind, Eff.invoke, pure, Eff.pure]

/-! ## The payload of `eip2612Permit` -/

/-- C1: whenever the three token reads return, `eip2612Permit` returns a payload
whose `domain.verifyingContract` is `token.address` and whose
`message.deadline` is the decimal string of the largest unsigned 256-bit
integer `2^256 - 1`, whatever the token handle, chain, owner, spender, value,
read results and world state are. -/
theorem eip2612Permit_verifyingContract_deadline {σ ε : Type} (token : Token σ ε)
    (chain : Chain) (o s : Address) (v : Nat) (r : Run σ) (n ver : String) (k : Nat)
    (w1 w2 w3 : σ)
    (h1 : token.name r.world = (.ok n, w1)) (h2 : token.version w1 = (.ok ver, w2))
    (h3 : token.nonces o w2 = (.ok k, w3)) :
    ∃ p r1, eip2612Permit token chain o s v r = (.ok p, r1) ∧
      p.domain.verifyingContract = token.address ∧
      p.message.deadline =
        "115792089237316195423570985008687907853269984665640564039457584007913129639935" ∧
      parseDecimal p.message.deadline = some (2 ^ 256 - 1) :=
  ⟨_, _, eip2612Permit_returns token chain o s v r n ver k w1 w2 w3 h1 h2 h3, rfl,
    bigintToString_maxUint256, parseDecimal_bigintToString maxUint256⟩

/-- C1, on the scripted USD Coin token. -/
theorem eip2612Permit_verifyingContract_deadline_witness :
    ∃ p r1, eip2612Permit (getContract scenarioClient scenarioTokenAddress) ⟨421614⟩
        "0xabc" "0xdef" 10000000 ⟨0, []⟩ = (.ok p, r1) ∧
      p.domain.verifyingContract = (getContract scenarioClient scenarioTokenAddress).address ∧
      p.message.deadline =
        "115792089237316195423570985008687907853269984665640564039457584007913129639935" ∧
      parseDecimal p.message.deadline = some (2 ^ 256 - 1) :=
  eip2612Permit_verifyingContract_deadline (getContract scenarioClient scenarioTokenAddress)
    ⟨421614⟩ "0xabc" "0xdef" 10000000 ⟨0, []⟩ "USD Coin" "2" 0 1 2 3 rfl rfl rfl

/-- C4: whenever the reads return and the nonces read returns `k`, the payload's
`message.nonce` and `message.value` are decimal strings that read back as
exactly `k` and the value `v` passed in (for every `k` and `v`, so for every
unsigned 256-bit one). -/
theorem eip2612Permit_nonce_value_parse {σ ε : Type} (token : Token σ ε)
    (chain : Chain) (o s : Address) (v : Nat) (r : Run σ) (n ver : String) (k : Nat)
    (w1 w2 w3 : σ)
    (h1 : token.name r.world = (.ok n, w1)) (h2 : token.version w1 = (.ok ver, w2))
    (h3 : token.nonces o w2 = (.ok k, w3)) :
    ∃ p r1, eip2612Permit token chain o s v r = (.ok p, r1) ∧
      parseDecimal p.message.nonce = some k ∧ parseDecimal p.message.value = some v :=
  ⟨_, _, eip2612Permit_returns token chain o s v r n ver k w1 w2 w3 h1 h2 h3,
    parseDecimal_bigintToString k, parseDecimal_bigintToString v⟩

/-- C4, on a token whose nonce is `2^256 - 1`, with value `2^256 - 1`. -/
theorem eip2612Permit_nonce_value_parse_witness :
    ∃ p r1, eip2612Permit
        (getContract (scriptedClient (.ok "USD Coin") (.ok "2") (.ok (2 ^ 256 - 1)) (.ok true))
          scenarioTokenAddress)
        ⟨421614⟩ "0xabc" "0xdef" (2 ^ 256 - 1) ⟨0, []⟩ = (.ok p, r1) ∧
      parseDecimal p.message.nonce = some (2 ^ 256 - 1) ∧
      parseDecimal p.message.value = some (2 ^ 256 - 1) :=
  eip2612Permit_nonce_value_parse
    (getContract (scriptedClient (.ok "USD Coin") (.ok "2") (.ok (2 ^ 256 - 1)) (.ok true))
      scenarioTokenAddress)
    ⟨421614⟩ "0xabc" "0xdef" (2 ^ 256 - 1) ⟨0, []⟩ "USD Coin" "2" (2 ^ 256 - 1) 1 2 3
    rfl rfl rfl

/-- C7: whenever the reads return name `n`, version `ver` and nonce `k`, the
payload's message is exactly owner, spender, the decimal string of the value,
the decimal string of `k` and the fixed deadline string, and its domain is
`n`, `ver`, `chain.id`, `token.address`; in the scenario (USD Coin, version 2,
chain 421614, nonce 0, value 10000000) the value is "10000000" and the nonce
is "0". -/
theorem eip2612Permit_message {σ ε : Type} (token : Token σ ε)
    (chain : Chain) (o s : Address) (v : Nat) (r : Run σ) (n ver : String) (k : Nat)
    (w1 w2 w3 : σ)
    (h1 : token.name r.world = (.ok n, w1)) (h2 : token.version w1 = (.ok ver, w2))
    (h3 : token.nonces o w2 = (.ok k, w3)) :
    ∃ p r1, eip2612Permit token chain o s v r = (.ok p, r1) ∧
      p.message =
        { owner := o
          spender := s
          value := bigintToString v
          nonce := bigintToString k
          deadline :=
            "115792089237316195423570985008687907853269984665640564039457584007913129639935" } ∧
      p.domain =
        { name := n, version := ver, chainId := chain.id, verifyingContract := token.address } ∧
      (n = "USD Coin" → ver = "2" → chain.id = 421614 → k = 0 → v = 10000000 →
        p.message.value = "10000000" ∧ p.message.nonce = "0" ∧
        p.domain =
          { name := "USD Coin", version := "2", chainId := 421614,
            verifyingContract := token.address }) := by
  refine ⟨_, _, eip2612Permit_returns token chain o s v r n ver k w1 w2 w3 h1 h2 h3, ?_, rfl, ?_⟩
  · rw [bigintToString_maxUint256]
  · intro hn hver hc hk hv
    subst hn hver hk hv
    rw [hc]
    exact ⟨(by decide : bigintToString 10000000 = "10000000"),
      (by decide : bigintToString 0 = "0"), rfl⟩

/-- C7, on the scripted USD Coin token of the scenario. -/
theorem eip2612Permit_message_witness :
    ∃ p r1, eip2612Permit (getContract scenarioClient scenarioTokenAddress) ⟨421614⟩
        "0xabc" "0xdef" 10000000 ⟨0, []⟩ = (.ok p, r1) ∧
      p.message =
        { owner := "0xabc"
          spender := "0xdef"
          value := bigintToString 10000000
          nonce := bigintToString 0
          deadline :=
            "115792089237316195423570985008687907853269984665640564039457584007913129639935" } ∧
      p.domain =
        { name := "USD Coin", version := "2", chainId := 421614,
          verifyingContract := scenarioTokenAddress } ∧
      ("USD Coin" = "USD Coin" → "2" = "2" → 421614 = 421614 → 0 = 0 → 10000000 = 10000000 →
        p.message.value = "10000000" ∧ p.message.nonce = "0" ∧
        p.domain =
          { name := "USD Coin", version := "2", chainId := 421614,
            verifyingContract := scenarioTokenAddress }) :=
  eip2612Permit_message (getContract scenarioClient scenarioTokenAddress)
    ⟨421614⟩ "0xabc" "0xdef" 10000000 ⟨0, []⟩ "USD Coin" "2" 0 1 2 3 rfl rfl rfl

/-- C8: two calls of `eip2612Permit` with the same token address, chain id,
owner, spender and value, in which the three reads return the same values,
return the same payload (all of types, primaryType, domain and message),
whatever the two worlds and the two token handles otherwise are. -/
theorem eip2612Permit_deterministic {σ ε σ2 ε2 : Type} (token : Token σ ε)
    (token2 : Token σ2 ε2) (chain chain2 : Chain) (o s : Address) (v : Nat) (r : Run σ)
    (r2 : Run σ2) (n ver : String) (k : Nat) (w1 w2 w3 : σ) (u1 u2 u3 : σ2)
    (ha : token.address = token2.address) (hc : chain.id = chain2.id)
    (h1 : token.name r.world = (.ok n, w1)) (h2 : token.version w1 = (.ok ver, w2))
    (h3 : token.nonces o w2 = (.ok k, w3))
    (g1 : token2.name r2.world = (.ok n, u1)) (g2 : token2.version u1 = (.ok ver, u2))
    (g3 : token2.nonces o u2 = (.ok k, u3)) :
    ∃ p q, (eip2612Permit token chain o s v r).1 = .ok p ∧
      (eip2612Permit token2 chain2 o s v r2).1 = .ok q ∧ p = q ∧
      p.types = q.types ∧ p.primaryType = q.primaryType ∧ p.domain = q.domain ∧
      p.message = q.message := by
  rw [eip2612Permit_returns token chain o s v r n ver k w1 w2 w3 h1 h2 h3,
    eip2612Permit_returns token2 chain2 o s v r2 n ver k u1 u2 u3 g1 g2 g3, ha, hc]
  exact ⟨_, _, rfl, rfl, rfl, rfl, rfl, rfl, rfl⟩

/-- C8, on two scripted clients that differ in their verification answer, from
two different worlds. -/
theorem eip2612Permit_deterministic_witness :
    ∃ p q, (eip2612Permit (getContract scenarioClient scenarioTokenAddress) ⟨421614⟩
        "0xabc" "0xdef" 10000000 ⟨0, []⟩).1 = .ok p ∧
      (eip2612Permit
        (getContract (scriptedClient (.ok "USD Coin") (.ok "2") (.ok 0) (.ok false))
          scenarioTokenAddress)
        ⟨421614⟩ "0xabc" "0xdef" 10000000 ⟨7, [.readName "0x0"]⟩).1 = .ok q ∧ p = q ∧
      p.types = q.types ∧ p.primaryType = q.primaryType ∧ p.domain = q.domain ∧
      p.message = q.message :=
  eip2612Permit_deterministic (getContract scenarioClient scenarioTokenAddress)
    (getContract (scriptedClient (.ok "USD Coin") (.ok "2") (.ok 0) (.ok false))
      scenarioTokenAddress)
    ⟨421614⟩ ⟨421614⟩ "0xabc" "0xdef" 10000000 ⟨0, []⟩ ⟨7, [.readName "0x0"]⟩
    "USD Coin" "2" 0 1 2 3 8 9 10 rfl rfl rfl rfl rfl rfl rfl rfl

/-- C10: every payload that `eip2612Permit` returns has primaryType "Permit" and
a types object with exactly the two entries EIP712Domain (name: string,
version: string, chainId: uint256, verifyingContract: address) and Permit
(owner: address, spender: address, value: uint256, nonce: uint256,
deadline: uint256), in this order, whatever the inputs are. -/
theorem eip2612Permit_types {σ ε : Type} (token : Token σ ε)
    (chain : Chain) (o s : Address) (v : Nat) (r r1 : Run σ) (p : TypedData)
    (h : eip2612Permit token chain o s v r = (.ok p, r1)) :
    p.primaryType = "Permit" ∧
    p.types =
      [ ("EIP712Domain",
          [ ⟨"name", "string"⟩, ⟨"version", "string"⟩, ⟨"chainId", "uint256"⟩,
            ⟨"verifyingContract", "address"⟩ ]),
        ("Permit",
          [ ⟨"owner", "address"⟩, ⟨"spender", "address"⟩, ⟨"value", "uint256"⟩,
            ⟨"nonce", "uint256"⟩, ⟨"deadline", "uint256"⟩ ]) ] ∧
    p.types.length = 2 := by
  obtain ⟨n, ver, k, w1, w2, w3, h1, h2, h3⟩ := eip2612Permit_ok_inv token chain o s v r r1 p h
  rw [eip2612Permit_returns token chain o s v r n ver k w1 w2 w3 h1 h2 h3] at h
  simp only [Prod.mk.injEq, Except.ok.injEq] at h
  rw [← h.1]
  exact ⟨rfl, rfl, rfl⟩

/-- C10, on the payload of the scenario. -/
theorem eip2612Permit_types_witness :
    scenarioPayload.primaryType = "Permit" ∧
    scenarioPayload.types =
      [ ("EIP712Domain",
          [ ⟨"name", "string"⟩, ⟨"version", "string"⟩, ⟨"chainId", "uint256"⟩,
            ⟨"verifyingContract", "address"⟩ ]),
        ("Permit",
          [ ⟨"owner", "address"⟩, ⟨"spender", "address"⟩, ⟨"value", "uint256"⟩,
            ⟨"nonce", "uint256"⟩, ⟨"deadline", "uint256"⟩ ]) ] ∧
    scenarioPayload.types.length = 2 :=
  eip2612Permit_types (getContract scenarioClient scenarioTokenAddress) ⟨421614⟩
    "0xabc" "0xdef" 10000000 ⟨0, []⟩
    ⟨3, [.readName scenarioTokenAddress, .readVersion scenarioTokenAddress,
      .readNonces scenarioTokenAddress "0xabc"]⟩
    scenarioPayload rfl

/-! ## The runs of `signPermit` -/

/-- C2: in every run of `signPermit` in which the payload is built, the signer
returns a signature `sig` and `client.verifyTypedData` returns false,
`signPermit` throws the error whose message names `account.address` and `sig`;
it returns no signature, and the calls of the run are the three reads, the
signing and the verification only, so `parseErc6492Signature` is not reached. -/
theorem signPermit_invalid_signature {σ ε : Type} (parse : Hex → Except ε Erc6492)
    (tokenAddress : Address) (client : Client σ ε) (account : Account σ ε)
    (spender : Address) (amount : Nat) (r r1 : Run σ) (p : TypedData) (sig : Hex) (w w2 : σ)
    (hp : eip2612Permit (getContract client tokenAddress) client.chain account.address spender
      amount r = (.ok p, r1))
    (hs : account.signTypedData p r1.world = (.ok sig, w))
    (hv : client.verifyTypedData
      ⟨p.types, p.primaryType, p.domain, p.message, account.address, sig⟩ w = (.ok false, w2)) :
    ∃ out, signPermit parse tokenAddress client account spender amount r =
        (.error (.error ("Invalid permit signature for " ++ account.address ++ ": " ++ sig)),
          out) ∧
      (∀ x, (signPermit parse tokenAddress client account spender amount r).1 ≠ .ok x) ∧
      newCalls r out =
        [.readName tokenAddress, .readVersion tokenAddress,
          .readNonces tokenAddress account.address,
          .signTypedData account.address p,
          .verifyTypedData ⟨p.types, p.primaryType, p.domain, p.message, account.address, sig⟩] ∧
      ∀ x, Call.parseErc6492Signature x ∉ newCalls r out := by
  obtain ⟨n, ver, k, w1, u2, u3, h1, h2, h3⟩ := eip2612Permit_ok_inv _ _ _ _ _ _ _ _ hp
  have hr := eip2612Permit_returns _ client.chain _ spender amount _ _ _ _ _ _ _ h1 h2 h3
  rw [hp] at hr
  simp only [Prod.mk.injEq, Except.ok.injEq] at hr
  have hsp := signPermit_of_payload parse tokenAddress client account spender amount r r1 p hp
  rw [hs] at hsp
  simp only [hv] at hsp
  refine ⟨_, hsp, ?_, ?_, ?_⟩
  · intro x hx
    rw [hsp] at hx
    simp at hx
  · rw [hr.2]
    simp [newCalls, getContract]
  · rw [hr.2]
    simp [newCalls, getContract]

/-- C2, on a scripted run whose verifier answers false. -/
theorem signPermit_invalid_signature_witness :
    ∃ out, signPermit unwrapPlain scenarioTokenAddress
        (scriptedClient (.ok "USD Coin") (.ok "2") (.ok 0) (.ok false))
        (scriptedAccount (.ok "0x1234")) "0xdef" 10000000 ⟨0, []⟩ =
        (.error (.error ("Invalid permit signature for " ++
          (scriptedAccount (.ok "0x1234")).address ++ ": " ++ "0x1234")), out) ∧
      (∀ x, (signPermit unwrapPlain scenarioTokenAddress
        (scriptedClient (.ok "USD Coin") (.ok "2") (.ok 0) (.ok false))
        (scriptedAccount (.ok "0x1234")) "0xdef" 10000000 ⟨0, []⟩).1 ≠ .ok x) ∧
      newCalls ⟨0, []⟩ out =
        [.readName scenarioTokenAddress, .readVersion scenarioTokenAddress,
          .readNonces scenarioTokenAddress (scriptedAccount (.ok "0x1234")).address,
          .signTypedData (scriptedAccount (.ok "0x1234")).address scenarioPayload,
          .verifyTypedData ⟨scenarioPayload.types, scenarioPayload.primaryType,
            scenarioPayload.domain, scenarioPayload.message,
            (scriptedAccount (.ok "0x1234")).address, "0x1234"⟩] ∧
      ∀ x, Call.parseErc6492Signature x ∉ newCalls ⟨0, []⟩ out :=
  signPermit_invalid_signature unwrapPlain scenarioTokenAddress
    (scriptedClient (.ok "USD Coin") (.ok "2") (.ok 0) (.ok false))
    (scriptedAccount (.ok "0x1234")) "0xdef" 10000000 ⟨0, []⟩
    ⟨3, [.readName scenarioTokenAddress, .readVersion scenarioTokenAddress,
      .readNonces scenarioTokenAddress "0xabc"]⟩
    scenarioPayload "0x1234" 4 5 rfl rfl rfl

/-- C3: in every run of `signPermit` that returns a value, that value is the
`signature` field of `parseErc6492Signature` applied to exactly the signature
`sig` that `account.signTypedData` returned for the payload `p` built by
`eip2612Permit`; `client.verifyTypedData` was called on the types, primaryType,
domain and message of that same `p` with `address = account.address` and
`signature = sig`, and returned true; `p.message.owner` is `account.address`;
and the calls of the run are the three reads, that signing, that verification
and that unwrapping, in this order. -/
theorem signPermit_returns_verified {σ ε : Type} (parse : Hex → Except ε Erc6492)
    (tokenAddress : Address) (client : Client σ ε) (account : Account σ ε)
    (spender : Address) (amount : Nat) (r out : Run σ) (result : Hex)
    (h : signPermit parse tokenAddress client account spender amount r = (.ok result, out)) :
    ∃ p r1 sig w w2 x,
      eip2612Permit (getContract client tokenAddress) client.chain account.address spender
        amount r = (.ok p, r1) ∧
      account.signTypedData p r1.world = (.ok sig, w) ∧
      client.verifyTypedData
        ⟨p.types, p.primaryType, p.domain, p.message, account.address, sig⟩ w = (.ok true, w2) ∧
      parse sig = .ok x ∧ result = x.signature ∧
      p.message.owner = account.address ∧
      newCalls r out =
        [.readName tokenAddress, .readVersion tokenAddress,
          .readNonces tokenAddress account.address,
          .signTypedData account.address p,
          .verifyTypedData ⟨p.types, p.primaryType, p.domain, p.message, account.address, sig⟩,
          .parseErc6492Signature sig] := by
  rcases hp : eip2612Permit (getContract client tokenAddress) client.chain account.address
    spender amount r with ⟨t | p, r1⟩
  · rw [signPermit_throws_of_payload parse tokenAddress client account spender amount r r1 t hp]
      at h
    simp at h
  obtain ⟨n, ver, k, w1, u2, u3, h1, h2, h3⟩ := eip2612Permit_ok_inv _ _ _ _ _ _ _ _ hp
  have hr := eip2612Permit_returns _ client.chain _ spender amount _ _ _ _ _ _ _ h1 h2 h3
  rw [hp] at hr
  simp only [Prod.mk.injEq, Except.ok.injEq] at hr
  rw [signPermit_of_payload parse tokenAddress client account spender amount r r1 p hp] at h
  rcases hs : account.signTypedData p r1.world with ⟨e | sig, w⟩
  · simp [hs] at h
  rcases hv : client.verifyTypedData
    ⟨p.types, p.primaryType, p.domain, p.message, account.address, sig⟩ w with ⟨e | b, w2⟩
  · simp [hs, hv] at h
  cases b
  · simp [hs, hv] at h
  rcases hx : parse sig with e | x
  · simp [hs, hv, hx] at h
  simp only [hs, hv, hx, Prod.mk.injEq, Except.ok.injEq] at h
  refine ⟨p, r1, sig, w, w2, x, rfl, hs, hv, hx, h.1.symm, ?_, ?_⟩
  · rw [hr.1]
  · rw [← h.2, hr.2]
    simp [newCalls, getContract]

/-- C3, on the scripted run of the scenario, which returns the signature. -/
theorem signPermit_returns_verified_witness :
    ∃ p r1 sig w w2 x,
      eip2612Permit (getContract scenarioClient scenarioTokenAddress) scenarioClient.chain
        (scriptedAccount (.ok "0x1234")).address "0xdef" 10000000 ⟨0, []⟩ = (.ok p, r1) ∧
      (scriptedAccount (.ok "0x1234")).signTypedData p r1.world = (.ok sig, w) ∧
      scenarioClient.verifyTypedData
        ⟨p.types, p.primaryType, p.domain, p.message,
          (scriptedAccount (.ok "0x1234")).address, sig⟩ w = (.ok true, w2) ∧
      unwrapPlain sig = .ok x ∧ "0x1234" = x.signature ∧
      p.message.owner = (scriptedAccount (.ok "0x1234")).address ∧
      newCalls ⟨0, []⟩ (⟨5, [.readName scenarioTokenAddress, .readVersion scenarioTokenAddress,
          .readNonces scenarioTokenAddress "0xabc",
          .signTypedData "0xabc" scenarioPayload,
          .verifyTypedData ⟨scenarioPayload.types, scenarioPayload.primaryType,
            scenarioPayload.domain, scenarioPayload.message, "0xabc", "0x1234"⟩,
          .parseErc6492Signature "0x1234"]⟩ : Run Nat) =
        [.readName scenarioTokenAddress, .readVersion scenarioTokenAddress,
          .readNonces scenarioTokenAddress (scriptedAccount (.ok "0x1234")).address,
          .signTypedData (scriptedAccount (.ok "0x1234")).address p,
          .verifyTypedData ⟨p.types, p.primaryType, p.domain, p.message,
            (scriptedAccount (.ok "0x1234")).address, sig⟩,
          .parseErc6492Signature sig] :=
  signPermit_returns_verified unwrapPlain scenarioTokenAddress scenarioClient
    (scriptedAccount (.ok "0x1234")) "0xdef" 10000000 ⟨0, []⟩ _ "0x1234" rfl

/-- C9: in every run in which one of the three token reads rejects with `e`,
`eip2612Permit` throws `e` and returns no payload; and a run of `signPermit`
in which a read of its token handle rejects with `e` throws that same `e`,
returns nothing, and makes no call of `account.signTypedData` or
`client.verifyTypedData`. -/
theorem read_failure_propagates {σ ε : Type} :
    (∀ (token : Token σ ε) (chain : Chain) (o s : Address) (v : Nat) (r : Run σ) (e : ε),
      ReadFails token o r.world e →
        (eip2612Permit token chain o s v r).1 = .error (.rejected e) ∧
        ∀ p, (eip2612Permit token chain o s v r).1 ≠ .ok p) ∧
    (∀ (parse : Hex → Except ε Erc6492) (tokenAddress : Address) (client : Client σ ε)
      (account : Account σ ε) (spender : Address) (amount : Nat) (r : Run σ) (e : ε),
      ReadFails (getContract client tokenAddress) account.address r.world e →
        (signPermit parse tokenAddress client account spender amount r).1
          = .error (.rejected e) ∧
        (∀ a d, Call.signTypedData a d ∉
          newCalls r (signPermit parse tokenAddress client account spender amount r).2) ∧
        (∀ q, Call.verifyTypedData q ∉
          newCalls r (signPermit parse tokenAddress client account spender amount r).2)) := by
  constructor
  · intro token chain o s v r e h
    obtain ⟨w, l, hl, _⟩ := eip2612Permit_rejects token chain o s v r e h
    rw [hl]
    exact ⟨rfl, fun p hp => by simp at hp⟩
  · intro parse tokenAddress client account spender amount r e h
    obtain ⟨w, l, hl, hmem⟩ :=
      eip2612Permit_rejects (getContract client tokenAddress) client.chain account.address
        spender amount r e h
    rw [signPermit_throws_of_payload parse tokenAddress client account spender amount r _ _ hl,
      newCalls_append]
    refine ⟨rfl, ?_, ?_⟩
    · intro a d hc
      rcases hmem _ hc with h1 | h1 | h1 <;> simp at h1
    · intro q hc
      rcases hmem _ hc with h1 | h1 | h1 <;> simp at h1

/-- C9, on a scripted run whose version read rejects. -/
theorem read_failure_propagates_witness :
    ((eip2612Permit
        (getContract
          (scriptedClient (.ok "USD Coin") (.error "call reverted") (.ok 0) (.ok true))
          scenarioTokenAddress)
        ⟨421614⟩ "0xabc" "0xdef" 10000000 ⟨0, []⟩).1 = .error (.rejected "call reverted") ∧
      ∀ p, (eip2612Permit
        (getContract
          (scriptedClient (.ok "USD Coin") (.error "call reverted") (.ok 0) (.ok true))
          scenarioTokenAddress)
        ⟨421614⟩ "0xabc" "0xdef" 10000000 ⟨0, []⟩).1 ≠ .ok p) ∧
    ((signPermit unwrapPlain scenarioTokenAddress
        (scriptedClient (.ok "USD Coin") (.error "call reverted") (.ok 0) (.ok true))
        (scriptedAccount (.ok "0x1234")) "0xdef" 10000000 ⟨0, []⟩).1
      = .error (.rejected "call reverted") ∧
    (∀ a d, Call.signTypedData a d ∉
      newCalls ⟨0, []⟩ (signPermit unwrapPlain scenarioTokenAddress
        (scriptedClient (.ok "USD Coin") (.error "call reverted") (.ok 0) (.ok true))
        (scriptedAccount (.ok "0x1234")) "0xdef" 10000000 ⟨0, []⟩).2) ∧
    (∀ q, Call.verifyTypedData q ∉
      newCalls ⟨0, []⟩ (signPermit unwrapPlain scenarioTokenAddress
        (scriptedClient (.ok "USD Coin") (.error "call reverted") (.ok 0) (.ok true))
        (scriptedAccount (.ok "0x1234")) "0xdef" 10000000 ⟨0, []⟩).2)) :=
  ⟨read_failure_propagates.1
      (getContract
        (scriptedClient (.ok "USD Coin") (.error "call reverted") (.ok 0) (.ok true))
        scenarioTokenAddress)
      ⟨421614⟩ "0xabc" "0xdef" 10000000 ⟨0, []⟩ "call reverted"
      (Or.inr (Or.inl ⟨"USD Coin", 1, rfl, rfl⟩)),
    read_failure_propagates.2 unwrapPlain scenarioTokenAddress
      (scriptedClient (.ok "USD Coin") (.error "call reverted") (.ok 0) (.ok true))
      (scriptedAccount (.ok "0x1234")) "0xdef" 10000000 ⟨0, []⟩ "call reverted"
      (Or.inr (Or.inl ⟨"USD Coin", 1, rfl, rfl⟩))⟩

/-! ## The paymaster data layout -/

/-- C5: for every 20-byte token address `t`, permit amount `a < 2^256` and
signature `s`, the paymaster data is the mode byte 0, then the 20 bytes of
`t`, then the 32 bytes of `a` in big-endian order, then `s`, and its length is
`53 + length s`; this holds in particular for the constants of
`getPaymasterData`. -/
theorem paymasterData_layout (t : Bytes) (a : Nat) (s : Bytes) (ht : t.length = 20)
    (ha : a < 2 ^ 256) :
    ∃ amount : Bytes, amount.length = 32 ∧ bytesToNumber amount = a ∧
      paymasterData t a s = some ([(0 : Byte)] ++ t ++ amount ++ s) ∧
      ([(0 : Byte)] ++ t ++ amount ++ s).length = 53 + s.length ∧
      (t = usdcAddress → a = permitAmount →
        paymasterData usdcAddress permitAmount s =
          some ([(0 : Byte)] ++ usdcAddress ++ amount ++ s)) := by
  refine ⟨numberToBytes 32 a, numberToBytes_length 32 a, bytesToNumber_numberToBytes_32 a ha,
    paymasterData_eq t a s ht ha, ?_, ?_⟩
  · simp [ht, numberToBytes_length]
    omega
  · intro h1 h2
    subst h1 h2
    exact paymasterData_eq _ _ s ht ha

/-- C5, on the constants of the scripts and a two-byte signature. -/
theorem paymasterData_layout_witness :
    usdcAddress.length = 20 ∧ permitAmount < 2 ^ 256 ∧
    ∃ amount : Bytes, amount.length = 32 ∧ bytesToNumber amount = permitAmount ∧
      paymasterData usdcAddress permitAmount [0xde, 0xad] =
        some ([(0 : Byte)] ++ usdcAddress ++ amount ++ [0xde, 0xad]) ∧
      ([(0 : Byte)] ++ usdcAddress ++ amount ++ [0xde, 0xad]).length
        = 53 + ([0xde, 0xad] : Bytes).length ∧
      (usdcAddress = usdcAddress → permitAmount = permitAmount →
        paymasterData usdcAddress permitAmount [0xde, 0xad] =
          some ([(0 : Byte)] ++ usdcAddress ++ amount ++ [0xde, 0xad])) :=
  ⟨by decide, by decide,
    paymasterData_layout usdcAddress permitAmount [0xde, 0xad] (by decide) (by decide)⟩

/-- C6: for every 20-byte token address `t`, permit amount `a < 2^256` and
signature `s`, the paymaster data exists and unpacking it by the documented
widths gives back mode 0, `t`, `a` and `s`. -/
theorem paymasterData_roundtrip (t : Bytes) (a : Nat) (s : Bytes) (ht : t.length = 20)
    (ha : a < 2 ^ 256) :
    ∃ data, paymasterData t a s = some data ∧
      unpackPaymasterData data =
        some { mode := 0, token := t, permitAmount := a, signature := s } := by
  refine ⟨_, paymasterData_eq t a s ht ha, ?_⟩
  have hn := numberToBytes_length 32 a
  have hlen : ¬ ([(0 : Byte)] ++ t ++ numberToBytes 32 a ++ s).length < 53 := by
    simp [ht, hn]
    omega
  have h1 : ([(0 : Byte)] ++ t ++ numberToBytes 32 a ++ s).take 1 = [0] := by simp
  have h2 : (([(0 : Byte)] ++ t ++ numberToBytes 32 a ++ s).drop 1).take 20 = t := by
    simp only [List.singleton_append, List.cons_append, List.drop_succ_cons, List.drop_zero,
      List.append_assoc]
    exact List.take_left' ht
  have h3 : (([(0 : Byte)] ++ t ++ numberToBytes 32 a ++ s).drop 21).take 32
      = numberToBytes 32 a := by
    simp only [List.singleton_append, List.cons_append, List.drop_succ_cons,
      List.append_assoc, List.nil_append]
    rw [List.drop_left' ht]
    exact List.take_left' hn
  have h4 : ([(0 : Byte)] ++ t ++ numberToBytes 32 a ++ s).drop 53 = s := by
    simp only [List.singleton_append, List.cons_append, List.drop_succ_cons, List.nil_append]
    rw [List.drop_left' (by simp [ht, hn])]
  rw [unpackPaymasterData, if_neg hlen, h1, h2, h3, h4, bytesToNumber_numberToBytes_32 a ha]
  rfl

/-- C6, on the constants of the scripts and a two-byte signature. -/
theorem paymasterData_roundtrip_witness :
    usdcAddress.length = 20 ∧ permitAmount < 2 ^ 256 ∧
    ∃ data, paymasterData usdcAddress permitAmount [0xde, 0xad] = some data ∧
      unpackPaymasterData data =
        some { mode := 0, token := usdcAddress, permitAmount := permitAmount,
               signature := [0xde, 0xad] } :=
  ⟨by decide, by decide,
    paymasterData_roundtrip usdcAddress permitAmount [0xde, 0xad] (by decide) (by decide)⟩

end Swaplesscircle
